import Mathlib

/-!
Verification of the track-recording engine of the GPS tracker repository.

The development shallowly embeds the relevant source files:
* `src/utils/gpsUtils.ts` — geometry kernel, sample filter, smoothing,
  speed/distance helpers (`calculateDistance`, `calculateSpeed`,
  `calculateBearing`, `degreesToCardinal`, `calculateTotalDistance`,
  `smoothCoordinates`, `filterGPSPoints`);
* `src/components/GPSTracker.tsx` — the recording state machine and
  metrics accumulator embedded as explicit state passing over
  `TrackerState` (`startTracking`, `stopTracking`, `togglePause`,
  `handlePositionUpdate`).

Numbers are modelled over `ℝ` (the source computes with IEEE doubles; the
real-number model captures the intended exact arithmetic).  Epoch
timestamps are integers of milliseconds.  JavaScript-specific numeric
primitives (`Math.atan2`, `Math.round`, the `%` remainder, value
truthiness) are embedded explicitly (`jsAtan2`, `jsRound`, `jsFmod`,
`Int.tmod`, option/zero tests) so that the translation follows the source
expression by expression.  Each `Date.now()` read within one event-handler
tick is modelled by a single `now` parameter, following the one-sample-
at-a-time event model of the application.
-/

open Classical

noncomputable section

namespace GPSTracker

/-- A GPS position as produced by the tracker (`Position` interface of
`GPSTracker.tsx`): coordinates, capture timestamp in epoch milliseconds,
and an optional accuracy radius in meters. -/
structure Position where
  lat : ℝ
  lng : ℝ
  timestamp : ℤ
  accuracy : Option ℝ
deriving DecidableEq

/-- The data the browser delivers for one geolocation fix
(`GeolocationPosition.coords`): coordinates, accuracy (always present) and
a nullable instantaneous speed in m/s. -/
structure RawSample where
  latitude : ℝ
  longitude : ℝ
  accuracy : ℝ
  speed : Option ℝ

/-- A committed track (`RouteData` interface): id, display name, the
recorded positions, session timestamps and the session's summary
metrics. -/
structure RouteData where
  id : String
  name : String
  positions : List Position
  startTime : ℤ
  endTime : Option ℤ
  totalDistance : ℝ
  averageSpeed : ℝ

/-! ## Geometry kernel (`gpsUtils.ts`) -/

/-- JavaScript `Math.atan2 y x`: four-quadrant arctangent, range
`[-π, π]`.  Signed zeroes are not modelled; `atan2 0 0 = 0`. -/
def jsAtan2 (y x : ℝ) : ℝ :=
  if 0 < x then Real.arctan (y / x)
  else if x < 0 ∧ 0 ≤ y then Real.arctan (y / x) + Real.pi
  else if x < 0 ∧ y < 0 then Real.arctan (y / x) - Real.pi
  else if x = 0 ∧ 0 < y then Real.pi / 2
  else if x = 0 ∧ y < 0 then -(Real.pi / 2)
  else 0

/-- JavaScript number truncation toward zero (used by the `%` operator on
non-integers). -/
def jsTrunc (x : ℝ) : ℤ :=
  if 0 ≤ x then ⌊x⌋ else ⌈x⌉

/-- JavaScript `%` on numbers: remainder with the sign of the dividend,
`a % b = a - b * trunc (a / b)`. -/
def jsFmod (a b : ℝ) : ℝ :=
  a - b * jsTrunc (a / b)

/-- JavaScript `Math.round`: round half toward positive infinity. -/
def jsRound (x : ℝ) : ℤ :=
  ⌊x + 1 / 2⌋

/-- `calculateDistance` (gpsUtils): great-circle distance in kilometers
between two coordinates via the haversine formula on a sphere of radius
6371 km. -/
def calculateDistance (pos1 pos2 : Position) : ℝ :=
  let R : ℝ := 6371
  let lat1Rad := pos1.lat * Real.pi / 180
  let lat2Rad := pos2.lat * Real.pi / 180
  let deltaLat := (pos2.lat - pos1.lat) * Real.pi / 180
  let deltaLng := (pos2.lng - pos1.lng) * Real.pi / 180
  let a :=
    Real.sin (deltaLat / 2) * Real.sin (deltaLat / 2) +
      Real.cos lat1Rad * Real.cos lat2Rad *
        Real.sin (deltaLng / 2) * Real.sin (deltaLng / 2)
  let c := 2 * jsAtan2 (Real.sqrt a) (Real.sqrt (1 - a))
  R * c

/-- `calculateSpeed` (gpsUtils): speed in km/h between two points.  The
source guards with `!pos1.timestamp || !pos2.timestamp`, which under
JavaScript truthiness also treats a timestamp of `0` as missing; with
the tracker's always-present integer timestamps that guard is the two
zero tests below. -/
def calculateSpeed (pos1 pos2 : Position) : ℝ :=
  if pos1.timestamp = 0 ∨ pos2.timestamp = 0 then 0
  else
    let distance := calculateDistance pos1 pos2
    let timeDiff := ((pos2.timestamp : ℝ) - (pos1.timestamp : ℝ)) / 1000 / 3600
    if timeDiff = 0 then 0
    else distance / timeDiff

/-- `calculateBearing` (gpsUtils): initial bearing from `pos1` to `pos2`
in degrees, normalised by `(deg + 360) % 360`. -/
def calculateBearing (pos1 pos2 : Position) : ℝ :=
  let lat1Rad := pos1.lat * Real.pi / 180
  let lat2Rad := pos2.lat * Real.pi / 180
  let deltaLng := (pos2.lng - pos1.lng) * Real.pi / 180
  let x := Real.sin deltaLng * Real.cos lat2Rad
  let y :=
    Real.cos lat1Rad * Real.sin lat2Rad -
      Real.sin lat1Rad * Real.cos lat2Rad * Real.cos deltaLng
  let bearingRad := jsAtan2 x y
  let bearingDeg := bearingRad * 180 / Real.pi
  jsFmod (bearingDeg + 360) 360

/-- The sixteen compass labels of `degreesToCardinal`. -/
def directions : List String :=
  ["N", "NNE", "NE", "ENE", "E", "ESE", "SE", "SSE",
   "S", "SSW", "SW", "WSW", "W", "WNW", "NW", "NNW"]

/-- `degreesToCardinal` (gpsUtils): index `Math.round (degrees / 22.5) % 16`
into the sixteen labels.  JavaScript `%` truncates toward zero, so a
negative rounded value yields a negative index; indexing an array out of
range yields `undefined`, modelled as `none`. -/
def degreesToCardinal (degrees : ℝ) : Option String :=
  let index := Int.tmod (jsRound (degrees / 22.5)) 16
  if index < 0 then none else directions.get? index.toNat

/-- Sum of distances between list-adjacent positions (the loop body of
`calculateTotalDistance`). -/
def adjacentDistanceSum : List Position → ℝ
  | p :: q :: rest => calculateDistance p q + adjacentDistanceSum (q :: rest)
  | _ => 0

/-- `calculateTotalDistance` (gpsUtils): `0` for fewer than two positions,
otherwise the sum of consecutive pairwise distances. -/
def calculateTotalDistance (positions : List Position) : ℝ :=
  if positions.length < 2 then 0
  else adjacentDistanceSum positions

/-- One output point of `smoothCoordinates`: the arithmetic mean of the
coordinates over the index window `[i - ⌊w/2⌋, min n (i + ⌈w/2⌉))` of the
source loop (natural subtraction models `Math.max(0, ·)`), with the
original timestamp. -/
def smoothedPoint (positions : List Position) (windowSize i : ℕ) : Position :=
  let start := i - windowSize / 2
  let stop := min positions.length (i + (windowSize + 1) / 2)
  let window := (positions.drop start).take (stop - start)
  { lat := (window.map Position.lat).sum / window.length
    lng := (window.map Position.lng).sum / window.length
    timestamp := ((positions.get? i).map Position.timestamp).getD 0
    accuracy := none }

/-- `smoothCoordinates` (gpsUtils): returns the input unchanged when it
has at most `windowSize` points, otherwise replaces every point's
coordinates by the mean over the centered window, keeping timestamps. -/
def smoothCoordinates (positions : List Position) (windowSize : ℕ := 3) :
    List Position :=
  if positions.length ≤ windowSize then positions
  else (List.range positions.length).map (smoothedPoint positions windowSize)

/-- The accuracy test of `filterGPSPoints`: the source writes
`position.accuracy && position.accuracy > maxAccuracy`, so an absent or
zero (falsy) accuracy never rejects. -/
def accuracyRejects (p : Position) (maxAccuracy : ℝ) : Prop :=
  match p.accuracy with
  | none => False
  | some a => ¬a = 0 ∧ maxAccuracy < a

/-- The loop of `filterGPSPoints`: each candidate is compared against the
last kept point; it is skipped when it is closer than `minDistance` or
when its accuracy is truthy and exceeds `maxAccuracy`. -/
def filterLoop (minDistance maxAccuracy : ℝ) (lastKept : Position) :
    List Position → List Position
  | [] => []
  | current :: rest =>
    if calculateDistance lastKept current < minDistance then
      filterLoop minDistance maxAccuracy lastKept rest
    else if accuracyRejects current maxAccuracy then
      filterLoop minDistance maxAccuracy lastKept rest
    else current :: filterLoop minDistance maxAccuracy current rest

/-- `filterGPSPoints` (gpsUtils): always keeps the first point, then runs
the admission loop with thresholds `minDistance` (default 0.005 km) and
`maxAccuracy` (default 50 m). -/
def filterGPSPoints (positions : List Position)
    (minDistance : ℝ := 0.005) (maxAccuracy : ℝ := 50) : List Position :=
  match positions with
  | [] => []
  | first :: rest => first :: filterLoop minDistance maxAccuracy first rest

/-! ## Recording state machine (`GPSTracker.tsx`)

The React component's `useState`/`useRef` cells become the fields of
`TrackerState`; each callback becomes a state transformer.  A functional
state update (`set… (prev => …)`) reads the up-to-date value, while a
plain closure read inside a callback reads the value as of the tick's
start — the embedding mirrors this distinction (`s.totalDistance` versus
the locally bound updated value in `handlePositionUpdate`). -/

/-- The mutable cells of the `GPSTracker` component that the recording
engine touches. -/
structure TrackerState where
  currentPosition : Option Position
  isTracking : Bool
  isPaused : Bool
  route : List Position
  totalDistance : ℝ
  currentSpeed : ℝ
  averageSpeed : ℝ
  savedRoutes : List RouteData
  watchId : Option ℕ
  lastPosition : Option Position
  startTime : ℤ

/-- Component state after mount (with no routes in `localStorage`);
`mountTime` is the `Date.now()` of the initial `startTimeRef`. -/
def initialState (mountTime : ℤ) : TrackerState :=
  { currentPosition := none
    isTracking := false
    isPaused := false
    route := []
    totalDistance := 0
    currentSpeed := 0
    averageSpeed := 0
    savedRoutes := []
    watchId := none
    lastPosition := none
    startTime := mountTime }

/-- The display name of a saved route (`Route <date> <time>`): the
locale rendering of the commit time, abstracted as an unspecified
injection of the timestamp into a label. -/
def routeName (now : ℤ) : String :=
  "Route " ++ toString now

/-- `startTracking`: registers the watch, switches to tracking/unpaused,
resets the session start time, total distance and route.  (The displayed
current and average speeds are not reset.) -/
def startTracking (s : TrackerState) (now : ℤ) (id : ℕ) : TrackerState :=
  { s with
    watchId := some id
    isTracking := true
    isPaused := false
    startTime := now
    totalDistance := 0
    route := [] }

/-- `stopTracking`: clears the watch; if the route has at least one
position, commits a `RouteData` snapshot (id = decimal string of
`Date.now()`, endTime = now) to the saved-routes list and (via
`localStorage`) the persisted area; finally leaves tracking and paused
both false.  The route itself is not cleared. -/
def stopTracking (s : TrackerState) (now : ℤ) : TrackerState :=
  let cleared := { s with watchId := none }
  if s.route.isEmpty then
    { cleared with isTracking := false, isPaused := false }
  else
    let routeData : RouteData :=
      { id := toString now
        name := routeName now
        positions := s.route
        startTime := s.startTime
        endTime := some now
        totalDistance := s.totalDistance
        averageSpeed := s.averageSpeed }
    { cleared with
      savedRoutes := s.savedRoutes ++ [routeData]
      isTracking := false
      isPaused := false }

/-- `togglePause`: unconditionally flips the paused flag (the only guard
in the source is the UI disabling the button while not tracking). -/
def togglePause (s : TrackerState) : TrackerState :=
  { s with isPaused := !s.isPaused }

/-- The `Position` record built at the top of `handlePositionUpdate`
(the timestamp is `Date.now()`, not the fix's own timestamp). -/
def mkPosition (position : RawSample) (now : ℤ) : Position :=
  { lat := position.latitude
    lng := position.longitude
    timestamp := now
    accuracy := some position.accuracy }

/-- `handlePositionUpdate`: stores the new position as current; updates
the displayed speed from the platform speed (m/s × 3.6, clamped at 0)
when a previous position exists and the platform speed is non-null; when
tracking and not paused, appends the position to the route, adds the
distance from the previous route point to the total, and recomputes the
average speed — from the closure's `totalDistance`, i.e. the value
before this tick's increment; finally records the position as last. -/
def handlePositionUpdate (s : TrackerState) (position : RawSample)
    (now : ℤ) : TrackerState :=
  let newPosition := mkPosition position now
  let newSpeed :=
    match s.lastPosition, position.speed with
    | some _, some sp => max 0 (sp * 3.6)
    | _, _ => s.currentSpeed
  if s.isTracking && !s.isPaused then
    let newRoute := s.route ++ [newPosition]
    let newTotal :=
      match s.route.getLast? with
      | some lastPos => s.totalDistance + calculateDistance lastPos newPosition
      | none => s.totalDistance
    let timeElapsed := ((now : ℝ) - (s.startTime : ℝ)) / 1000 / 3600
    let newAverage :=
      if 0 < timeElapsed then s.totalDistance / timeElapsed
      else s.averageSpeed
    { s with
      currentPosition := some newPosition
      currentSpeed := newSpeed
      route := newRoute
      totalDistance := newTotal
      averageSpeed := newAverage
      lastPosition := some newPosition }
  else
    { s with
      currentPosition := some newPosition
      currentSpeed := newSpeed
      lastPosition := some newPosition }

/-! ## Characterisation of `handlePositionUpdate` -/

theorem handle_currentPosition (s : TrackerState) (r : RawSample) (now : ℤ) :
    (handlePositionUpdate s r now).currentPosition = some (mkPosition r now) := by
  unfold handlePositionUpdate
  dsimp only
  split <;> rfl

theorem handle_lastPosition (s : TrackerState) (r : RawSample) (now : ℤ) :
    (handlePositionUpdate s r now).lastPosition = some (mkPosition r now) := by
  unfold handlePositionUpdate
  dsimp only
  split <;> rfl

theorem handle_isTracking (s : TrackerState) (r : RawSample) (now : ℤ) :
    (handlePositionUpdate s r now).isTracking = s.isTracking := by
  unfold handlePositionUpdate
  dsimp only
  split <;> rfl

theorem handle_isPaused (s : TrackerState) (r : RawSample) (now : ℤ) :
    (handlePositionUpdate s r now).isPaused = s.isPaused := by
  unfold handlePositionUpdate
  dsimp only
  split <;> rfl

theorem handle_savedRoutes (s : TrackerState) (r : RawSample) (now : ℤ) :
    (handlePositionUpdate s r now).savedRoutes = s.savedRoutes := by
  unfold handlePositionUpdate
  dsimp only
  split <;> rfl

theorem handle_startTime (s : TrackerState) (r : RawSample) (now : ℤ) :
    (handlePositionUpdate s r now).startTime = s.startTime := by
  unfold handlePositionUpdate
  dsimp only
  split <;> rfl

theorem handle_route_recording {s : TrackerState} (r : RawSample) (now : ℤ)
    (ht : s.isTracking = true) (hp : s.isPaused = false) :
    (handlePositionUpdate s r now).route = s.route ++ [mkPosition r now] := by
  unfold handlePositionUpdate
  rw [ht, hp]
  simp

theorem handle_route_notRecording {s : TrackerState} (r : RawSample) (now : ℤ)
    (h : ¬(s.isTracking = true ∧ s.isPaused = false)) :
    (handlePositionUpdate s r now).route = s.route := by
  unfold handlePositionUpdate
  dsimp only
  have : (s.isTracking && !s.isPaused) = false := by
    rcases Bool.eq_false_or_eq_true s.isTracking with h1 | h1 <;>
      rcases Bool.eq_false_or_eq_true s.isPaused with h2 | h2 <;>
        simp_all
  rw [this]
  simp

theorem handle_total_recording {s : TrackerState} (r : RawSample) (now : ℤ)
    (ht : s.isTracking = true) (hp : s.isPaused = false) {lastPos : Position}
    (hl : s.route.getLast? = some lastPos) :
    (handlePositionUpdate s r now).totalDistance =
      s.totalDistance + calculateDistance lastPos (mkPosition r now) := by
  unfold handlePositionUpdate
  rw [ht, hp, hl]
  simp

theorem handle_total_firstSample {s : TrackerState} (r : RawSample) (now : ℤ)
    (hl : s.route.getLast? = none) :
    (handlePositionUpdate s r now).totalDistance = s.totalDistance := by
  unfold handlePositionUpdate
  dsimp only
  rw [hl]
  split <;> rfl

theorem handle_average_recording {s : TrackerState} (r : RawSample) (now : ℤ)
    (ht : s.isTracking = true) (hp : s.isPaused = false) :
    (handlePositionUpdate s r now).averageSpeed =
      if 0 < ((now : ℝ) - (s.startTime : ℝ)) / 1000 / 3600 then
        s.totalDistance / (((now : ℝ) - (s.startTime : ℝ)) / 1000 / 3600)
      else s.averageSpeed := by
  unfold handlePositionUpdate
  rw [ht, hp]
  simp

theorem handle_speed_platform {s : TrackerState} {r : RawSample} (now : ℤ)
    {q : Position} {sp : ℝ} (hl : s.lastPosition = some q)
    (hs : r.speed = some sp) :
    (handlePositionUpdate s r now).currentSpeed = max 0 (sp * 3.6) := by
  unfold handlePositionUpdate
  dsimp only
  rw [hl, hs]
  split <;> rfl

theorem handle_speed_noPlatform {s : TrackerState} {r : RawSample} (now : ℤ)
    (hs : r.speed = none) :
    (handlePositionUpdate s r now).currentSpeed = s.currentSpeed := by
  unfold handlePositionUpdate
  dsimp only
  rw [hs]
  rcases s.lastPosition <;> split <;> rfl

theorem handle_speed_noLast {s : TrackerState} {r : RawSample} (now : ℤ)
    (hl : s.lastPosition = none) :
    (handlePositionUpdate s r now).currentSpeed = s.currentSpeed := by
  unfold handlePositionUpdate
  dsimp only
  rw [hl]
  rcases r.speed <;> split <;> rfl

/-! ## Geometry lemmas -/

theorem calculateDistance_eq_coords {p q : Position} (hlat : p.lat = q.lat)
    (hlng : p.lng = q.lng) : calculateDistance p q = 0 := by
  unfold calculateDistance jsAtan2
  rw [hlat, hlng, sub_self, sub_self]
  norm_num [Real.arctan_zero]

/-! ## Claim theorems -/

/-- C5, counterexample: `togglePause` invoked in the `Idle` state (the
freshly mounted component, not tracking and not paused) does change the
engine state — the paused flag flips to `true` — and no error value is
produced anywhere in the code, refuting the claim that the call is a
state-preserving no-op reported as an `InvalidTransition` error. -/
theorem togglePause_from_idle_changes_state :
    (initialState 0).isTracking = false ∧ (initialState 0).isPaused = false ∧
      (togglePause (initialState 0)).isPaused = true ∧
      togglePause (initialState 0) ≠ initialState 0 := by
  refine ⟨rfl, rfl, rfl, ?_⟩
  intro h
  have := congrArg TrackerState.isPaused h
  simp [togglePause, initialState] at this

/-- C5, amended: `togglePause` is unguarded — from any state it flips the
paused flag and leaves every other field unchanged; in particular, called
while `Idle` it leaves `isTracking` false but sets `isPaused` true, and
the source has no error reporting for invalid transitions (the UI merely
disables the pause button while not tracking). -/
theorem togglePause_unguarded (s : TrackerState) :
    (togglePause s).isPaused = !s.isPaused ∧
      (togglePause s).isTracking = s.isTracking ∧
      (togglePause s).route = s.route ∧
      (togglePause s).totalDistance = s.totalDistance ∧
      (togglePause s).savedRoutes = s.savedRoutes ∧
      (togglePause s).currentPosition = s.currentPosition :=
  ⟨rfl, rfl, rfl, rfl, rfl, rfl⟩

/-- C4, counterexample: after a session with one recorded sample,
`stopTracking` commits the track but does not clear the active-track
reference — the `route` state still holds the recorded position, refuting
the claim's "clears the active-track reference" conjunct. -/
theorem stopTracking_keeps_route :
    (stopTracking
        (handlePositionUpdate (startTracking (initialState 0) 0 1)
          ⟨0, 0, 5, none⟩ 0) 1000).route =
      [mkPosition ⟨0, 0, 5, none⟩ 0] ∧
    (stopTracking
        (handlePositionUpdate (startTracking (initialState 0) 0 1)
          ⟨0, 0, 5, none⟩ 0) 1000).route ≠ [] := by
  constructor
  · rfl
  · intro h
    rw [show (stopTracking
        (handlePositionUpdate (startTracking (initialState 0) 0 1)
          ⟨0, 0, 5, none⟩ 0) 1000).route =
      [mkPosition ⟨0, 0, 5, none⟩ 0] from rfl] at h
    exact List.cons_ne_nil _ _ h

/-- C4, amended: `stopTracking` invoked while tracking (Recording or
Paused) clears the watch subscription, commits the active track — with
`endTime = now` and the session's accumulated metrics — to the store if
and only if it has at least one sample (a zero-sample stop creates no
entry and is not an error), and resets the tracking and paused flags; the
route itself is retained for display and export rather than cleared. -/
theorem stopTracking_spec (s : TrackerState) (now : ℤ)
    (htrk : s.isTracking = true) :
    (stopTracking s now).isTracking = false ∧
      (stopTracking s now).isPaused = false ∧
      (stopTracking s now).watchId = none ∧
      (stopTracking s now).route = s.route ∧
      (s.route = [] → (stopTracking s now).savedRoutes = s.savedRoutes) ∧
      (s.route ≠ [] →
        (stopTracking s now).savedRoutes = s.savedRoutes ++
          [{ id := toString now
             name := routeName now
             positions := s.route
             startTime := s.startTime
             endTime := some now
             totalDistance := s.totalDistance
             averageSpeed := s.averageSpeed }]) := by
  unfold stopTracking
  by_cases h : s.route.isEmpty
  · have hnil : s.route = [] := List.isEmpty_iff.mp h
    rw [if_pos h]
    exact ⟨rfl, rfl, rfl, rfl, fun _ => rfl, fun hne => absurd hnil hne⟩
  · have hne : ¬s.route = [] := fun hnil => h (by simp [hnil])
    rw [if_neg h]
    exact ⟨rfl, rfl, rfl, rfl, fun hnil => absurd hnil hne, fun _ => rfl⟩

/-- C4 witness: the amended stop behaviour at a concrete one-sample
session — the commit happens and carries the session data. -/
theorem stopTracking_spec_witness :
    (handlePositionUpdate (startTracking (initialState 0) 0 1)
        ⟨0, 0, 5, none⟩ 0).isTracking = true ∧
    (stopTracking
        (handlePositionUpdate (startTracking (initialState 0) 0 1)
          ⟨0, 0, 5, none⟩ 0) 1000).isTracking = false := by
  refine ⟨rfl, ?_⟩
  exact (stopTracking_spec
    (handlePositionUpdate (startTracking (initialState 0) 0 1)
      ⟨0, 0, 5, none⟩ 0) 1000 rfl).1

/-- C2, counterexample: while recording, a raw sample at the exact
coordinates of the previous one — which the Sample Filter's admission
test rejects (distance 0 < 0.005 km) — is nevertheless appended to the
active track: the route grows to two samples, although
`filterGPSPoints` on the same two positions keeps only the first.  The
handler never consults the filter. -/
theorem unfiltered_sample_appended :
    (handlePositionUpdate
        (handlePositionUpdate (startTracking (initialState 0) 0 1)
          ⟨0, 0, 5, none⟩ 0)
        ⟨0, 0, 5, none⟩ 1000).route.length = 2 ∧
    filterGPSPoints
        [mkPosition ⟨0, 0, 5, none⟩ 0, mkPosition ⟨0, 0, 5, none⟩ 1000]
        0.005 50 =
      [mkPosition ⟨0, 0, 5, none⟩ 0] := by
  constructor
  · rfl
  · have hd : calculateDistance (mkPosition ⟨0, 0, 5, none⟩ 0)
        (mkPosition ⟨0, 0, 5, none⟩ 1000) = 0 :=
      calculateDistance_eq_coords rfl rfl
    simp only [filterGPSPoints, filterLoop, hd]
    norm_num

/-- C2, amended: processing a raw sample in any state always updates the
last known displayed position; no admission test is applied — while
Recording (tracking and not paused) every raw sample is appended to the
active track, and while Paused (or not tracking at all) the active
track's sample list is unchanged although the last known position keeps
updating. -/
theorem onSample_state_behaviour (s : TrackerState) (r : RawSample)
    (now : ℤ) :
    (handlePositionUpdate s r now).currentPosition =
        some (mkPosition r now) ∧
      (handlePositionUpdate s r now).lastPosition =
        some (mkPosition r now) ∧
      (s.isTracking = true → s.isPaused = false →
        (handlePositionUpdate s r now).route =
          s.route ++ [mkPosition r now]) ∧
      (s.isPaused = true →
        (handlePositionUpdate s r now).route = s.route) ∧
      (s.isTracking = false →
        (handlePositionUpdate s r now).route = s.route) := by
  refine ⟨handle_currentPosition s r now, handle_lastPosition s r now,
    fun ht hp => handle_route_recording r now ht hp,
    fun hp => handle_route_notRecording r now ?_,
    fun ht => handle_route_notRecording r now ?_⟩
  · rintro ⟨-, hp0⟩
    rw [hp] at hp0
    exact Bool.noConfusion hp0
  · rintro ⟨ht0, -⟩
    rw [ht] at ht0
    exact Bool.noConfusion ht0

/-- C2 witness: the amended behaviour at a concrete paused state — the
route does not grow but the last known position updates. -/
theorem onSample_state_behaviour_witness :
    (togglePause (startTracking (initialState 0) 0 1)).isPaused = true ∧
    (handlePositionUpdate (togglePause (startTracking (initialState 0) 0 1))
        ⟨0, 0, 5, none⟩ 0).route =
      (togglePause (startTracking (initialState 0) 0 1)).route ∧
    (handlePositionUpdate (togglePause (startTracking (initialState 0) 0 1))
        ⟨0, 0, 5, none⟩ 0).lastPosition =
      some (mkPosition ⟨0, 0, 5, none⟩ 0) :=
  ⟨rfl,
    (onSample_state_behaviour (togglePause (startTracking (initialState 0) 0 1))
      ⟨0, 0, 5, none⟩ 0).2.2.2.1 rfl,
    (onSample_state_behaviour (togglePause (startTracking (initialState 0) 0 1))
      ⟨0, 0, 5, none⟩ 0).2.1⟩

/-- C6, counterexample: the very first sample of the stream arrives with
a platform speed of 10 m/s; the claim requires the displayed current
speed to become 10 × 3.6 = 36 km/h, but the handler additionally demands
a previous position (`lastPositionRef.current &&`), so the displayed
speed stays 0. -/
theorem first_sample_speed_not_displayed :
    (handlePositionUpdate (initialState 0) ⟨0, 0, 5, some 10⟩ 0).currentSpeed
        = 0 ∧
      (10 : ℝ) * 3.6 ≠ 0 := by
  constructor
  · rw [handle_speed_noLast 0 rfl]
    rfl
  · norm_num

/-- C6, amended: the displayed current speed is updated from the platform
speed (m/s × 3.6, clamped below at 0) only when both a previous position
exists and the platform speed is non-null; in every other case the
displayed speed is left unchanged — the handler never derives a speed
from the two most recent samples.  The unused helper `calculateSpeed`
does implement that derivation: for positions with non-zero timestamps it
returns the haversine distance divided by the time difference in hours,
and 0 when that difference is 0. -/
theorem currentSpeed_behaviour (s : TrackerState) (r : RawSample)
    (now : ℤ) (p1 p2 : Position) :
    (∀ q sp, s.lastPosition = some q → r.speed = some sp →
        (handlePositionUpdate s r now).currentSpeed = max 0 (sp * 3.6)) ∧
      (r.speed = none →
        (handlePositionUpdate s r now).currentSpeed = s.currentSpeed) ∧
      (s.lastPosition = none →
        (handlePositionUpdate s r now).currentSpeed = s.currentSpeed) ∧
      (¬p1.timestamp = 0 → ¬p2.timestamp = 0 →
        calculateSpeed p1 p2 =
          if ((p2.timestamp : ℝ) - (p1.timestamp : ℝ)) / 1000 / 3600 = 0
          then 0
          else calculateDistance p1 p2 /
            (((p2.timestamp : ℝ) - (p1.timestamp : ℝ)) / 1000 / 3600)) := by
  refine ⟨fun q sp hl hs => handle_speed_platform now hl hs,
    fun hs => handle_speed_noPlatform now hs,
    fun hl => handle_speed_noLast now hl, fun h1 h2 => ?_⟩
  unfold calculateSpeed
  rw [if_neg (by tauto)]

/-- C6 witness: the amended speed behaviour at concrete inputs — a
second-tick platform speed is displayed converted and clamped, and
`calculateSpeed` divides distance by hours. -/
theorem currentSpeed_behaviour_witness :
    (handlePositionUpdate
        (handlePositionUpdate (initialState 0) ⟨0, 0, 5, none⟩ 0)
        ⟨0, 0, 5, some 10⟩ 1000).currentSpeed = max 0 ((10 : ℝ) * 3.6) ∧
    calculateSpeed ⟨0, 0, 1000, none⟩ ⟨0, 0, 1000, none⟩ =
      if ((1000 : ℝ) - (1000 : ℝ)) / 1000 / 3600 = 0 then 0
      else calculateDistance ⟨0, 0, 1000, none⟩ ⟨0, 0, 1000, none⟩ /
        (((1000 : ℝ) - (1000 : ℝ)) / 1000 / 3600) := by
  constructor
  · exact (currentSpeed_behaviour
      (handlePositionUpdate (initialState 0) ⟨0, 0, 5, none⟩ 0)
      ⟨0, 0, 5, some 10⟩ 1000 ⟨0, 0, 0, none⟩ ⟨0, 0, 0, none⟩).1
      (mkPosition ⟨0, 0, 5, none⟩ 0) 10 (handle_lastPosition _ _ _) rfl
  · have h1000 : ((1000 : ℤ) : ℤ) ≠ 0 := by decide
    exact (currentSpeed_behaviour (initialState 0) ⟨0, 0, 5, none⟩ 0
      ⟨0, 0, 1000, none⟩ ⟨0, 0, 1000, none⟩).2.2.2 (by decide) (by decide)

/-- Concrete haversine evaluation: from the equator point (0,0) to the
pole point (90,0) the distance is a quarter great circle,
6371·π/2 km. -/
theorem calculateDistance_zero_to_pole {p q : Position} (h1 : p.lat = 0)
    (h2 : p.lng = 0) (h3 : q.lat = 90) (h4 : q.lng = 0) :
    calculateDistance p q = 6371 * Real.pi / 2 := by
  have hs : Real.sin (Real.pi / 2 / 2) * Real.sin (Real.pi / 2 / 2)
      = 1 / 2 := by
    rw [show Real.pi / 2 / 2 = Real.pi / 4 by ring, Real.sin_pi_div_four,
      div_mul_div_comm, Real.mul_self_sqrt (by norm_num : (0 : ℝ) ≤ 2)]
    norm_num
  have hhalf : (0 : ℝ) < Real.sqrt (1 / 2) := Real.sqrt_pos.mpr (by norm_num)
  have hj : jsAtan2 (Real.sqrt (1 / 2)) (Real.sqrt (1 / 2)) = Real.pi / 4 := by
    unfold jsAtan2
    rw [if_pos hhalf, div_self (ne_of_gt hhalf), Real.arctan_one]
  simp only [calculateDistance]
  rw [h1, h2, h3, h4]
  rw [show ((90 : ℝ) - 0) * Real.pi / 180 = Real.pi / 2 by ring,
    show ((0 : ℝ) - 0) * Real.pi / 180 = 0 by ring,
    show (0 : ℝ) * Real.pi / 180 = 0 by ring,
    show (90 : ℝ) * Real.pi / 180 = Real.pi / 2 by ring,
    Real.cos_zero, Real.cos_pi_div_two, show (0 : ℝ) / 2 = 0 by ring,
    Real.sin_zero, hs]
  rw [show (1 : ℝ) / 2 + 1 * 0 * 0 * 0 = 1 / 2 by ring,
    show (1 : ℝ) - 1 / 2 = 1 / 2 by ring, hj]
  ring

/-- C1: the stale-closure average speed.  In the session started at
`t = 0`, after a first sample at (0,0) and a second at (90,0) one minute
later, the handler computes the tick's average speed from the closure's
pre-tick `totalDistance` (0 km): the displayed average speed is 0 even
though the just-updated total distance is 6371·π/2 km, so the value the
claim mandates — updated total divided by elapsed hours — is non-zero. -/
theorem average_speed_uses_stale_total :
    (handlePositionUpdate
        (handlePositionUpdate (startTracking (initialState 0) 0 1)
          ⟨0, 0, 5, none⟩ 0)
        ⟨90, 0, 5, none⟩ 60000).averageSpeed = 0 ∧
      (handlePositionUpdate
          (handlePositionUpdate (startTracking (initialState 0) 0 1)
            ⟨0, 0, 5, none⟩ 0)
          ⟨90, 0, 5, none⟩ 60000).totalDistance = 6371 * Real.pi / 2 ∧
      (handlePositionUpdate
          (handlePositionUpdate (startTracking (initialState 0) 0 1)
            ⟨0, 0, 5, none⟩ 0)
          ⟨90, 0, 5, none⟩ 60000).totalDistance /
          (((60000 : ℝ) - 0) / 1000 / 3600) ≠ 0 := by
  have havg := @handle_average_recording
    (handlePositionUpdate (startTracking (initialState 0) 0 1)
      ⟨0, 0, 5, none⟩ 0) ⟨90, 0, 5, none⟩ 60000 rfl rfl
  have htot := @handle_total_recording
    (handlePositionUpdate (startTracking (initialState 0) 0 1)
      ⟨0, 0, 5, none⟩ 0) ⟨90, 0, 5, none⟩ 60000 rfl rfl
    (mkPosition ⟨0, 0, 5, none⟩ 0) rfl
  have hdist : calculateDistance (mkPosition ⟨0, 0, 5, none⟩ 0)
      (mkPosition ⟨90, 0, 5, none⟩ 60000) = 6371 * Real.pi / 2 :=
    calculateDistance_zero_to_pole rfl rfl rfl rfl
  have hstart0 : (handlePositionUpdate (startTracking (initialState 0) 0 1)
      ⟨0, 0, 5, none⟩ 0).startTime = 0 := rfl
  have hpretot : (handlePositionUpdate (startTracking (initialState 0) 0 1)
      ⟨0, 0, 5, none⟩ 0).totalDistance = 0 := rfl
  refine ⟨?_, ?_, ?_⟩
  · rw [havg, hstart0, hpretot]
    norm_num
  · rw [htot, hpretot, hdist, zero_add]
  · rw [htot, hpretot, hdist, zero_add]
    have hpos : (0 : ℝ) < 6371 * Real.pi / 2 /
        (((60000 : ℝ) - 0) / 1000 / 3600) := by positivity
    exact hpos.ne'

/-! ## Sessions: start, a stream of samples, stop -/

/-- A stream of raw samples with arrival times, processed one event tick
at a time. -/
def runSamples (s : TrackerState) : List (RawSample × ℤ) → TrackerState
  | [] => s
  | (r, t) :: rest => runSamples (handlePositionUpdate s r t) rest

theorem calculateTotalDistance_eq_adj (l : List Position) :
    calculateTotalDistance l = adjacentDistanceSum l := by
  match l with
  | [] => rfl
  | [p] => rfl
  | p :: q :: rest =>
    unfold calculateTotalDistance
    rw [if_neg (by simp)]

theorem adjacentDistanceSum_append (l : List Position) (p : Position) :
    adjacentDistanceSum (l ++ [p]) =
      adjacentDistanceSum l +
        (match l.getLast? with
         | some q => calculateDistance q p
         | none => 0) := by
  induction l with
  | nil => simp [adjacentDistanceSum]
  | cons a t ih =>
    cases t with
    | nil => simp [adjacentDistanceSum]
    | cons b t2 =>
      have hshape : (a :: b :: t2) ++ [p] = a :: ((b :: t2) ++ [p]) := rfl
      rw [hshape]
      have hcons : adjacentDistanceSum (a :: ((b :: t2) ++ [p])) =
          calculateDistance a b + adjacentDistanceSum ((b :: t2) ++ [p]) := rfl
      rw [hcons, ih, List.getLast?_cons_cons]
      show _ = calculateDistance a b + adjacentDistanceSum (b :: t2) + _
      ring

/-- While recording (tracking, not paused), the running total equals the
pairwise sum over the route, the flags persist, and the route grows by
one per sample. -/
theorem runSamples_invariant (samples : List (RawSample × ℤ))
    (s : TrackerState) (ht : s.isTracking = true) (hp : s.isPaused = false)
    (hd : s.totalDistance = calculateTotalDistance s.route) :
    (runSamples s samples).isTracking = true ∧
      (runSamples s samples).isPaused = false ∧
      (runSamples s samples).savedRoutes = s.savedRoutes ∧
      (runSamples s samples).route.length =
        s.route.length + samples.length ∧
      (runSamples s samples).totalDistance =
        calculateTotalDistance (runSamples s samples).route := by
  induction samples generalizing s with
  | nil => exact ⟨ht, hp, rfl, by simp [runSamples], hd⟩
  | cons rt rest ih =>
    obtain ⟨r, t⟩ := rt
    have hrun : runSamples s ((r, t) :: rest) =
        runSamples (handlePositionUpdate s r t) rest := rfl
    have hroute := handle_route_recording r t ht hp
    have hstep : (handlePositionUpdate s r t).totalDistance =
        calculateTotalDistance (handlePositionUpdate s r t).route := by
      rw [hroute, calculateTotalDistance_eq_adj, adjacentDistanceSum_append]
      cases hlast : s.route.getLast? with
      | none =>
        have hnil : s.route = [] := List.getLast?_eq_none_iff.mp hlast
        rw [handle_total_firstSample r t hlast, hd, hnil]
        show calculateTotalDistance [] = adjacentDistanceSum [] + 0
        simp [calculateTotalDistance, adjacentDistanceSum]
      | some q =>
        rw [handle_total_recording r t ht hp hlast, hd,
          calculateTotalDistance_eq_adj]
    have ih2 := ih (handlePositionUpdate s r t)
      ((handle_isTracking s r t).trans ht)
      ((handle_isPaused s r t).trans hp) hstep
    rw [hrun]
    refine ⟨ih2.1, ih2.2.1, ih2.2.2.1.trans (handle_savedRoutes s r t), ?_,
      ih2.2.2.2.2⟩
    rw [ih2.2.2.2.1, hroute]
    simp [List.length_append]
    omega

/-- C3: a session of `start`, then any non-empty stream of samples, then
`stop` commits exactly one track, whose recorded `totalDistance` — built
incrementally, one distance increment per tick — equals the from-scratch
pairwise haversine sum `calculateTotalDistance` over its sample list. -/
theorem committed_total_distance (s0 : TrackerState) (t0 : ℤ) (id : ℕ)
    (samples : List (RawSample × ℤ)) (tStop : ℤ) (hne : samples ≠ []) :
    ∃ committed : RouteData,
      (stopTracking (runSamples (startTracking s0 t0 id) samples)
          tStop).savedRoutes = s0.savedRoutes ++ [committed] ∧
      committed.positions =
        (runSamples (startTracking s0 t0 id) samples).route ∧
      committed.totalDistance = calculateTotalDistance committed.positions ∧
      committed.endTime = some tStop := by
  have hstart_total : (startTracking s0 t0 id).totalDistance =
      calculateTotalDistance (startTracking s0 t0 id).route := rfl
  have base := runSamples_invariant samples (startTracking s0 t0 id)
    rfl rfl hstart_total
  have hlen : (runSamples (startTracking s0 t0 id) samples).route.length =
      samples.length := by
    have := base.2.2.2.1
    simpa [startTracking] using this
  have hne_route : ¬(runSamples (startTracking s0 t0 id) samples).route.isEmpty := by
    intro h0
    have : (runSamples (startTracking s0 t0 id) samples).route = [] :=
      List.isEmpty_iff.mp h0
    rw [this] at hlen
    exact hne (List.eq_nil_of_length_eq_zero hlen.symm)
  refine ⟨{ id := toString tStop
            name := routeName tStop
            positions := (runSamples (startTracking s0 t0 id) samples).route
            startTime := (runSamples (startTracking s0 t0 id) samples).startTime
            endTime := some tStop
            totalDistance :=
              (runSamples (startTracking s0 t0 id) samples).totalDistance
            averageSpeed :=
              (runSamples (startTracking s0 t0 id) samples).averageSpeed },
    ?_, rfl, base.2.2.2.2, rfl⟩
  unfold stopTracking
  rw [if_neg hne_route]
  rw [base.2.2.1]
  rfl

/-- C3 witness: a concrete one-sample session; the committed track's
total distance is the pairwise sum over its positions. -/
theorem committed_total_distance_witness :
    ([((⟨0, 0, 5, none⟩ : RawSample), (0 : ℤ))] ≠ []) ∧
    ∃ committed : RouteData,
      (stopTracking
          (runSamples (startTracking (initialState 0) 0 1)
            [(⟨0, 0, 5, none⟩, 0)]) 1000).savedRoutes =
        (initialState 0).savedRoutes ++ [committed] ∧
      committed.positions =
        (runSamples (startTracking (initialState 0) 0 1)
          [(⟨0, 0, 5, none⟩, 0)]).route ∧
      committed.totalDistance = calculateTotalDistance committed.positions ∧
      committed.endTime = some 1000 :=
  ⟨List.cons_ne_nil _ _,
    committed_total_distance (initialState 0) 0 1
      [(⟨0, 0, 5, none⟩, 0)] 1000 (List.cons_ne_nil _ _)⟩

/-! ## The Sample Filter admission test, as the claim words it -/

/-- The admission predicate as the claim states it: the first sample
(no last admitted) is always admitted; a later candidate is rejected when
its accuracy value is present and exceeds `maxAccuracyM` (regardless of
distance), rejected when its distance from the last admitted sample is
below `minDistanceKm`, and admitted otherwise. -/
def admitSpec (lastAdmitted : Option Position) (candidate : Position)
    (minDistanceKm maxAccuracyM : ℝ) : Prop :=
  match lastAdmitted with
  | none => True
  | some last =>
    (∀ a, candidate.accuracy = some a → a ≤ maxAccuracyM) ∧
      minDistanceKm ≤ calculateDistance last candidate

/-- Batch filtering driven by the claim's admission predicate, tracking
the last admitted sample. -/
def filterSpec (minD maxA : ℝ) :
    Option Position → List Position → List Position
  | _, [] => []
  | last, c :: rest =>
    if admitSpec last c minD maxA then c :: filterSpec minD maxA (some c) rest
    else filterSpec minD maxA last rest

theorem admitSpec_some_iff {c last : Position} {minD maxA : ℝ}
    (hA : 0 ≤ maxA) :
    admitSpec (some last) c minD maxA ↔
      ¬accuracyRejects c maxA ∧ ¬calculateDistance last c < minD := by
  unfold admitSpec accuracyRejects
  cases hacc : c.accuracy with
  | none => simp [not_lt]
  | some a =>
    constructor
    · rintro ⟨h1, h2⟩
      refine ⟨?_, not_lt.mpr h2⟩
      rintro ⟨-, hgt⟩
      exact absurd (h1 a rfl) (not_le.mpr hgt)
    · rintro ⟨h1, h2⟩
      refine ⟨?_, not_lt.mp h2⟩
      intro b hb
      cases hb
      by_contra hgt
      exact h1 ⟨fun h0 => absurd (h0 ▸ hA) (not_le.mpr (not_le.mp hgt)),
        not_le.mp hgt⟩

theorem filterLoop_eq_filterSpec {minD maxA : ℝ} (hA : 0 ≤ maxA)
    (l : List Position) :
    ∀ last, filterLoop minD maxA last l =
      filterSpec minD maxA (some last) l := by
  induction l with
  | nil => intro last; rfl
  | cons c rest ih =>
    intro last
    show (if calculateDistance last c < minD then
        filterLoop minD maxA last rest
      else if accuracyRejects c maxA then filterLoop minD maxA last rest
      else c :: filterLoop minD maxA c rest) = _
    by_cases hdist : calculateDistance last c < minD
    · rw [if_pos hdist]
      have hnot : ¬admitSpec (some last) c minD maxA := by
        rw [admitSpec_some_iff hA]
        rintro ⟨-, h2⟩
        exact h2 hdist
      show _ = if admitSpec (some last) c minD maxA then
          c :: filterSpec minD maxA (some c) rest
        else filterSpec minD maxA (some last) rest
      rw [if_neg hnot]
      exact ih last
    · rw [if_neg hdist]
      by_cases hacc : accuracyRejects c maxA
      · rw [if_pos hacc]
        have hnot : ¬admitSpec (some last) c minD maxA := by
          rw [admitSpec_some_iff hA]
          rintro ⟨h1, -⟩
          exact h1 hacc
        show _ = if admitSpec (some last) c minD maxA then
            c :: filterSpec minD maxA (some c) rest
          else filterSpec minD maxA (some last) rest
        rw [if_neg hnot]
        exact ih last
      · rw [if_neg hacc]
        have hyes : admitSpec (some last) c minD maxA :=
          (admitSpec_some_iff hA).mpr ⟨hacc, hdist⟩
        show _ = if admitSpec (some last) c minD maxA then
            c :: filterSpec minD maxA (some c) rest
          else filterSpec minD maxA (some last) rest
        rw [if_pos hyes]
        rw [ih c]

theorem filterLoop_const {minD maxA : ℝ} (hD : 0 < minD) (p : Position) :
    ∀ n, filterLoop minD maxA p (List.replicate n p) = [] := by
  intro n
  induction n with
  | zero => rfl
  | succ m ih =>
    rw [List.replicate_succ]
    show (if calculateDistance p p < minD then
        filterLoop minD maxA p (List.replicate m p)
      else if accuracyRejects p maxA then
        filterLoop minD maxA p (List.replicate m p)
      else p :: filterLoop minD maxA p (List.replicate m p)) = []
    rw [if_pos (by rw [calculateDistance_eq_coords rfl rfl]; exact hD)]
    exact ih

/-- C7: the source filter is exactly the claim's admission test — the
first sample is always kept, and each later candidate is kept precisely
when its accuracy (when present) does not exceed `maxAccuracy` and its
distance from the last admitted sample is at least `minDistance`; a
constant-position stream keeps only its first sample.  (Stated for any
non-negative accuracy threshold; the defaults are 0.005 km and 50 m.) -/
theorem filter_admission (ps : List Position) (minD maxA : ℝ)
    (hA : 0 ≤ maxA) (hD : 0 < minD) (n : ℕ) (p q : Position)
    (qs : List Position) :
    filterGPSPoints ps minD maxA = filterSpec minD maxA none ps ∧
      (filterGPSPoints (q :: qs) minD maxA).head? = some q ∧
      filterGPSPoints (List.replicate (n + 1) p) minD maxA = [p] := by
  refine ⟨?_, ?_, ?_⟩
  · cases ps with
    | nil => rfl
    | cons first rest =>
      show first :: filterLoop minD maxA first rest =
        if admitSpec none first minD maxA then
          first :: filterSpec minD maxA (some first) rest
        else filterSpec minD maxA none rest
      rw [if_pos (show admitSpec none first minD maxA from trivial),
        filterLoop_eq_filterSpec hA]
  · rfl
  · rw [List.replicate_succ]
    show p :: filterLoop minD maxA p (List.replicate n p) = [p]
    rw [filterLoop_const hD p n]

/-- C7 witness: the filter equivalence and constant-stream collapse at
the default thresholds on concrete data. -/
theorem filter_admission_witness :
    (0 : ℝ) ≤ 50 ∧ (0 : ℝ) < 0.005 ∧
      filterGPSPoints (List.replicate 3 (⟨0, 0, 0, none⟩ : Position))
          0.005 50 = [⟨0, 0, 0, none⟩] :=
  ⟨by norm_num, by norm_num,
    (filter_admission [] 0.005 50 (by norm_num) (by norm_num) 2
      ⟨0, 0, 0, none⟩ ⟨0, 0, 0, none⟩ []).2.2⟩

/-! ## Smoothing, as the claim words it -/

instance : Inhabited Position := ⟨⟨0, 0, 0, none⟩⟩

/-- The smoothing the claim describes: every point of the sequence —
whatever its length — is replaced by the arithmetic mean of the
coordinates over the centered window reaching from `⌊w/2⌋` places to the
left to `⌈w/2⌉ - 1` places to the right, clipped at the sequence
boundaries, with the point's own timestamp preserved. -/
def smoothSpec (positions : List Position) (windowSize : ℕ) :
    List Position :=
  (List.range positions.length).map fun i =>
    let window :=
      (positions.take (i + (windowSize + 1) / 2)).drop (i - windowSize / 2)
    { lat := (window.map Position.lat).sum / window.length
      lng := (window.map Position.lng).sum / window.length
      timestamp := (positions.getD i default).timestamp
      accuracy := none }

theorem take_min_drop (l : List Position) (a b : ℕ) (hab : a ≤ b) :
    (l.drop a).take (min l.length b - a) = (l.take b).drop a := by
  rw [List.take_drop]
  by_cases h : a ≤ min l.length b
  · rw [show a + (min l.length b - a) = min l.length b by omega,
      Nat.min_comm, ← List.take_take, List.take_length]
  · have h1 : List.drop a (List.take (a + (min l.length b - a)) l) = [] := by
      apply List.drop_eq_nil_of_le
      rw [List.length_take]
      omega
    have h2 : List.drop a (List.take b l) = [] := by
      apply List.drop_eq_nil_of_le
      rw [List.length_take]
      omega
    rw [h1, h2]

theorem smoothedPoint_eq_spec (positions : List Position) (w i : ℕ)
    (hi : i < positions.length) :
    smoothedPoint positions w i =
      (let window :=
        (positions.take (i + (w + 1) / 2)).drop (i - w / 2)
      { lat := (window.map Position.lat).sum / window.length
        lng := (window.map Position.lng).sum / window.length
        timestamp := (positions.getD i default).timestamp
        accuracy := none } : Position) := by
  unfold smoothedPoint
  dsimp only
  have hw := take_min_drop positions (i - w / 2) (i + (w + 1) / 2)
    (by omega)
  have hts : positions.get? i = some (positions.getD i default) := by
    rw [List.get?_eq_getElem?, List.getElem?_eq_getElem hi,
      List.getD_eq_getElem?_getD, List.getElem?_eq_getElem hi]
    rfl
  rw [hw, hts]
  rfl

/-- C8, counterexample: on a two-point input (shorter than the window),
`smoothCoordinates` returns the input unchanged, whereas the claim's
windowed averaging would move the first point's latitude to the mean
(0 + 2) / 2 = 1 — so the output is not the claimed mean sequence. -/
theorem smooth_short_input_unchanged :
    smoothCoordinates [⟨0, 0, 0, none⟩, ⟨2, 0, 1, none⟩] 3 =
        [⟨0, 0, 0, none⟩, ⟨2, 0, 1, none⟩] ∧
      smoothSpec [⟨0, 0, 0, none⟩, ⟨2, 0, 1, none⟩] 3 ≠
        [⟨0, 0, 0, none⟩, ⟨2, 0, 1, none⟩] := by
  constructor
  · rfl
  · intro h
    have h0 := congrArg
      (fun l => ((l.get? 0).map Position.lat).getD 37) h
    simp only [smoothSpec] at h0
    norm_num [List.range_succ] at h0

/-- C8, amended: for inputs longer than the window, `smoothCoordinates`
produces a new sequence of the same length in which every point's
coordinates are the arithmetic mean over the centered window (clipped at
the boundaries) and every point keeps its own timestamp; for inputs of at
most the window size it returns the input unchanged, performing no
averaging. -/
theorem smooth_matches_spec (ps : List Position) (w : ℕ) :
    (ps.length ≤ w → smoothCoordinates ps w = ps) ∧
      (w < ps.length → smoothCoordinates ps w = smoothSpec ps w) ∧
      (w < ps.length → (smoothCoordinates ps w).length = ps.length) ∧
      (w < ps.length → ∀ i, i < ps.length →
        ((smoothCoordinates ps w).get? i).map Position.timestamp =
          (ps.get? i).map Position.timestamp) := by
  have hmain : w < ps.length → smoothCoordinates ps w = smoothSpec ps w := by
    intro hlt
    unfold smoothCoordinates smoothSpec
    rw [if_neg (not_le.mpr hlt)]
    refine List.map_congr_left fun i hi => ?_
    exact smoothedPoint_eq_spec ps w i (List.mem_range.mp hi)
  refine ⟨fun hle => ?_, hmain, fun hlt => ?_, fun hlt i hi => ?_⟩
  · unfold smoothCoordinates
    rw [if_pos hle]
  · rw [hmain hlt]
    unfold smoothSpec
    rw [List.length_map, List.length_range]
  · rw [hmain hlt]
    unfold smoothSpec
    rw [List.get?_map, List.get?_range hi]
    have hts : ps.get? i = some (ps.getD i default) := by
      rw [List.get?_eq_getElem?, List.getElem?_eq_getElem hi,
        List.getD_eq_getElem?_getD, List.getElem?_eq_getElem hi]
      rfl
    rw [hts]
    rfl

/-- C8 witness: the amended smoothing behaviour on a concrete four-point
input (longer than the window). -/
theorem smooth_matches_spec_witness :
    (3 < ([⟨0, 0, 0, none⟩, ⟨1, 0, 1, none⟩, ⟨2, 0, 2, none⟩,
        ⟨3, 0, 3, none⟩] : List Position).length) ∧
      smoothCoordinates
          [⟨0, 0, 0, none⟩, ⟨1, 0, 1, none⟩, ⟨2, 0, 2, none⟩,
            ⟨3, 0, 3, none⟩] 3 =
        smoothSpec
          [⟨0, 0, 0, none⟩, ⟨1, 0, 1, none⟩, ⟨2, 0, 2, none⟩,
            ⟨3, 0, 3, none⟩] 3 :=
  ⟨by norm_num,
    (smooth_matches_spec
        [⟨0, 0, 0, none⟩, ⟨1, 0, 1, none⟩, ⟨2, 0, 2, none⟩,
          ⟨3, 0, 3, none⟩] 3).2.1 (by norm_num)⟩

/-! ## Bearing range and cardinal-sector bounds -/

theorem jsAtan2_bounds (y x : ℝ) :
    -Real.pi < jsAtan2 y x ∧ jsAtan2 y x ≤ Real.pi := by
  have hpi := Real.pi_pos
  have harc1 := Real.arctan_lt_pi_div_two (y / x)
  have harc2 := Real.neg_pi_div_two_lt_arctan (y / x)
  unfold jsAtan2
  split_ifs with h1 h2 h3 h4 h5
  · constructor <;> linarith
  · have hq : y / x ≤ 0 := div_nonpos_iff.mpr (Or.inl ⟨h2.2, h2.1.le⟩)
    have harcle : Real.arctan (y / x) ≤ 0 := by
      have hmono := Real.arctan_strictMono.monotone hq
      rwa [Real.arctan_zero] at hmono
    constructor <;> linarith
  · have hq : 0 < y / x := div_pos_of_neg_of_neg h3.2 h3.1
    have harcpos : 0 < Real.arctan (y / x) := by
      have hmono := Real.arctan_strictMono hq
      rwa [Real.arctan_zero] at hmono
    constructor <;> linarith
  · constructor <;> linarith
  · constructor <;> linarith
  · constructor <;> linarith

theorem jsFmod_nonneg_lt {a b : ℝ} (ha : 0 ≤ a) (hb : 0 < b) :
    0 ≤ jsFmod a b ∧ jsFmod a b < b := by
  unfold jsFmod jsTrunc
  rw [if_pos (div_nonneg ha hb.le)]
  have h1 : (⌊a / b⌋ : ℝ) ≤ a / b := Int.floor_le _
  have h2 : a / b < ⌊a / b⌋ + 1 := Int.lt_floor_add_one _
  have hba : b * (a / b) = a := by field_simp
  have h3 : b * (⌊a / b⌋ : ℝ) ≤ a := by
    calc b * (⌊a / b⌋ : ℝ) ≤ b * (a / b) :=
          mul_le_mul_of_nonneg_left h1 hb.le
      _ = a := hba
  have h4 : a < b * ((⌊a / b⌋ : ℝ) + 1) := by
    calc a = b * (a / b) := hba.symm
      _ < b * ((⌊a / b⌋ : ℝ) + 1) :=
          mul_lt_mul_of_pos_left h2 hb
  constructor
  · linarith
  · nlinarith

/-- `calculateBearing` always lands in `[0, 360)`. -/
theorem calculateBearing_bounds (pos1 pos2 : Position) :
    0 ≤ calculateBearing pos1 pos2 ∧ calculateBearing pos1 pos2 < 360 := by
  unfold calculateBearing
  dsimp only
  have hpi := Real.pi_pos
  set r := jsAtan2
    (Real.sin ((pos2.lng - pos1.lng) * Real.pi / 180) *
      Real.cos (pos2.lat * Real.pi / 180))
    (Real.cos (pos1.lat * Real.pi / 180) *
        Real.sin (pos2.lat * Real.pi / 180) -
      Real.sin (pos1.lat * Real.pi / 180) *
        Real.cos (pos2.lat * Real.pi / 180) *
          Real.cos ((pos2.lng - pos1.lng) * Real.pi / 180)) with hr
  have hb := jsAtan2_bounds
    (Real.sin ((pos2.lng - pos1.lng) * Real.pi / 180) *
      Real.cos (pos2.lat * Real.pi / 180))
    (Real.cos (pos1.lat * Real.pi / 180) *
        Real.sin (pos2.lat * Real.pi / 180) -
      Real.sin (pos1.lat * Real.pi / 180) *
        Real.cos (pos2.lat * Real.pi / 180) *
          Real.cos ((pos2.lng - pos1.lng) * Real.pi / 180))
  rw [← hr] at hb
  have hdeg_le : r * 180 / Real.pi ≤ 180 := by
    rw [div_le_iff hpi]
    nlinarith [hb.2]
  have hdeg_gt : (-180 : ℝ) < r * 180 / Real.pi := by
    rw [lt_div_iff hpi]
    nlinarith [hb.1]
  exact jsFmod_nonneg_lt (by linarith) (by norm_num)

/-- C10: for every non-negative bearing — in particular every output of
`calculateBearing`, which lies in `[0, 360)` — the rounded sector index
lies in `[0, 15]`, so `degreesToCardinal` returns one of the sixteen
labels; the non-negativity is needed: at `-22.5` the JavaScript
truncating remainder gives index `-1` and the lookup is out of bounds. -/
theorem cardinal_in_bounds (d : ℝ) (hd : 0 ≤ d) (pos1 pos2 : Position) :
    (∃ lbl, degreesToCardinal d = some lbl ∧ lbl ∈ directions) ∧
      (0 ≤ calculateBearing pos1 pos2 ∧ calculateBearing pos1 pos2 < 360) ∧
      degreesToCardinal (-22.5) = none := by
  refine ⟨?_, calculateBearing_bounds pos1 pos2, ?_⟩
  · have hround : 0 ≤ jsRound (d / 22.5) := by
      unfold jsRound
      positivity
    have hmod0 : 0 ≤ Int.tmod (jsRound (d / 22.5)) 16 :=
      Int.tmod_nonneg 16 hround
    have hmod16 : Int.tmod (jsRound (d / 22.5)) 16 < 16 :=
      Int.tmod_lt_of_pos _ (by norm_num)
    have hnat : (Int.tmod (jsRound (d / 22.5)) 16).toNat <
        directions.length := by
      have : directions.length = 16 := rfl
      omega
    refine ⟨directions.get ⟨(Int.tmod (jsRound (d / 22.5)) 16).toNat, hnat⟩,
      ?_, List.get_mem _ _ _⟩
    unfold degreesToCardinal
    rw [if_neg (not_lt.mpr hmod0)]
    exact List.get?_eq_get hnat
  · have hfloor : jsRound ((-22.5) / 22.5) = -1 := by
      unfold jsRound
      rw [show (-22.5 : ℝ) / 22.5 + 1 / 2 = -(1 / 2) by norm_num]
      rw [Int.floor_eq_iff]
      constructor <;> norm_num
    unfold degreesToCardinal
    rw [hfloor]
    rfl

/-- C10 witness: the in-bounds sector at the concrete bearing 45°. -/
theorem cardinal_in_bounds_witness :
    (0 : ℝ) ≤ 45 ∧
      ∃ lbl, degreesToCardinal 45 = some lbl ∧ lbl ∈ directions :=
  ⟨by norm_num,
    (cardinal_in_bounds 45 (by norm_num) ⟨0, 0, 0, none⟩
      ⟨1, 1, 0, none⟩).1⟩

/-! ## Injectivity of the decimal track id

A committed track's id is `Date.now().toString()` — the decimal string of
the commit's epoch milliseconds.  The rendering is injective, so two ids
coincide exactly when the two commits carry the same millisecond
timestamp. -/

/-- Most-significant-first decimal digit characters of a natural number —
the semantic description of what `Nat.toDigits 10` produces. -/
def decChars (n : ℕ) : List Char :=
  if n < 10 then [Nat.digitChar n]
  else decChars (n / 10) ++ [Nat.digitChar (n % 10)]
decreasing_by exact Nat.div_lt_self (by omega) (by omega)

theorem decChars_small {n : ℕ} (h : n < 10) :
    decChars n = [Nat.digitChar n] := by
  rw [decChars, if_pos h]

theorem decChars_big {n : ℕ} (h : ¬n < 10) :
    decChars n = decChars (n / 10) ++ [Nat.digitChar (n % 10)] := by
  rw [decChars]
  rw [if_neg h]

theorem decChars_ne_nil (n : ℕ) : decChars n ≠ [] := by
  by_cases h : n < 10
  · rw [decChars_small h]
    exact List.cons_ne_nil _ _
  · rw [decChars_big h]
    simp

theorem toDigitsCore_eq_decChars (fuel : ℕ) :
    ∀ n ds, n < 10 ^ (fuel + 1) →
      Nat.toDigitsCore 10 (fuel + 1) n ds = decChars n ++ ds := by
  induction fuel with
  | zero =>
    intro n ds hn
    have h10 : n < 10 := by simpa using hn
    have hdiv : n / 10 = 0 := Nat.div_eq_of_lt h10
    have hmod : n % 10 = n := Nat.mod_eq_of_lt h10
    show (if n / 10 = 0 then Nat.digitChar (n % 10) :: ds
      else Nat.toDigitsCore 10 0 (n / 10)
        (Nat.digitChar (n % 10) :: ds)) = decChars n ++ ds
    rw [if_pos hdiv, hmod, decChars_small h10]
    rfl
  | succ fuel ih =>
    intro n ds hn
    show (if n / 10 = 0 then Nat.digitChar (n % 10) :: ds
      else Nat.toDigitsCore 10 (fuel + 1) (n / 10)
        (Nat.digitChar (n % 10) :: ds)) = decChars n ++ ds
    by_cases hdiv : n / 10 = 0
    · have h10 : n < 10 := by omega
      rw [if_pos hdiv, Nat.mod_eq_of_lt h10, decChars_small h10]
      rfl
    · have h10 : ¬n < 10 := by omega
      have hlt : n / 10 < 10 ^ (fuel + 1) := by
        rw [Nat.div_lt_iff_lt_mul (by omega)]
        calc n < 10 ^ (fuel + 1 + 1) := hn
          _ = 10 ^ (fuel + 1) * 10 := by ring
      rw [if_neg hdiv, ih (n / 10) (Nat.digitChar (n % 10) :: ds) hlt,
        decChars_big h10, List.append_assoc]
      rfl

theorem toDigits_eq_decChars (n : ℕ) : Nat.toDigits 10 n = decChars n := by
  have hpow : n < 10 ^ (n + 1) := by
    calc n < 10 ^ n := Nat.lt_pow_self (by omega) n
      _ ≤ 10 ^ (n + 1) := Nat.pow_le_pow_right (by omega) (by omega)
  have := toDigitsCore_eq_decChars n n [] hpow
  rw [Nat.toDigits, this, List.append_nil]

theorem digitChar_inj :
    ∀ a < 10, ∀ b < 10, Nat.digitChar a = Nat.digitChar b → a = b := by
  decide

theorem digitChar_ne_dash : ∀ d < 10, ¬Nat.digitChar d = '-' := by
  decide

theorem decChars_head_digit (n : ℕ) :
    ∃ d, d < 10 ∧ (decChars n).head? = some (Nat.digitChar d) := by
  induction n using Nat.strong_induction_on with
  | _ n ih =>
    by_cases h : n < 10
    · exact ⟨n, h, by rw [decChars_small h]; rfl⟩
    · obtain ⟨d, hd, hhead⟩ := ih (n / 10) (Nat.div_lt_self (by omega) (by omega))
      refine ⟨d, hd, ?_⟩
      rw [decChars_big h, List.head?_append_of_ne_nil _ (decChars_ne_nil _)]
      exact hhead

theorem decChars_inj (m : ℕ) : ∀ n, decChars m = decChars n → m = n := by
  induction m using Nat.strong_induction_on with
  | _ m ih =>
    intro n h
    by_cases hm : m < 10 <;> by_cases hn : n < 10
    · rw [decChars_small hm, decChars_small hn] at h
      exact digitChar_inj m hm n hn (List.head_eq_of_cons_eq h)
    · exfalso
      rw [decChars_small hm, decChars_big hn] at h
      have hlen := congrArg List.length h
      rw [List.length_append] at hlen
      simp only [List.length_singleton] at hlen
      have hpos := List.length_pos.mpr (decChars_ne_nil (n / 10))
      omega
    · exfalso
      rw [decChars_big hm, decChars_small hn] at h
      have hlen := congrArg List.length h
      rw [List.length_append] at hlen
      simp only [List.length_singleton] at hlen
      have hpos := List.length_pos.mpr (decChars_ne_nil (m / 10))
      omega
    · rw [decChars_big hm, decChars_big hn] at h
      obtain ⟨hpre, hlast⟩ := List.append_inj' h rfl
      have hdiv : m / 10 = n / 10 :=
        ih (m / 10) (Nat.div_lt_self (by omega) (by omega)) (n / 10) hpre
      have hmod : m % 10 = n % 10 :=
        digitChar_inj (m % 10) (Nat.mod_lt _ (by omega)) (n % 10)
          (Nat.mod_lt _ (by omega)) (List.head_eq_of_cons_eq hlast)
      omega

theorem string_data_inj {s t : String} (h : s.data = t.data) : s = t := by
  cases s
  cases t
  exact congrArg String.mk h

theorem natRepr_injective {m n : ℕ} (h : Nat.repr m = Nat.repr n) :
    m = n := by
  have h2 : Nat.toDigits 10 m = Nat.toDigits 10 n := congrArg String.data h
  rw [toDigits_eq_decChars, toDigits_eq_decChars] at h2
  exact decChars_inj m n h2

theorem intToString_injective {m n : ℤ} (h : toString m = toString n) :
    m = n := by
  match m, n with
  | Int.ofNat a, Int.ofNat b =>
    have ha : toString (Int.ofNat a) = Nat.repr a := rfl
    have hb : toString (Int.ofNat b) = Nat.repr b := rfl
    rw [ha, hb] at h
    rw [natRepr_injective h]
  | Int.negSucc a, Int.negSucc b =>
    have ha : toString (Int.negSucc a) = "-" ++ Nat.repr (a + 1) := rfl
    have hb : toString (Int.negSucc b) = "-" ++ Nat.repr (b + 1) := rfl
    rw [ha, hb] at h
    have h2 : ('-' :: (Nat.repr (a + 1)).data) =
        ('-' :: (Nat.repr (b + 1)).data) := congrArg String.data h
    have h3 : Nat.repr (a + 1) = Nat.repr (b + 1) :=
      string_data_inj (List.tail_eq_of_cons_eq h2)
    have hab : a + 1 = b + 1 := natRepr_injective h3
    have hab2 : a = b := by omega
    rw [hab2]
  | Int.ofNat a, Int.negSucc b =>
    exfalso
    have h2 : (Nat.repr a).data = ('-' :: (Nat.repr (b + 1)).data) :=
      congrArg String.data h
    obtain ⟨d, hd, hhead⟩ := decChars_head_digit a
    have hrepr : (Nat.repr a).data = decChars a := toDigits_eq_decChars a
    rw [hrepr] at h2
    rw [h2] at hhead
    have hdd : Nat.digitChar d = '-' := by
      simpa using hhead.symm
    exact digitChar_ne_dash d hd hdd
  | Int.negSucc a, Int.ofNat b =>
    exfalso
    have h2 : ('-' :: (Nat.repr (a + 1)).data) = (Nat.repr b).data :=
      congrArg String.data h
    obtain ⟨d, hd, hhead⟩ := decChars_head_digit b
    have hrepr : (Nat.repr b).data = decChars b := toDigits_eq_decChars b
    rw [hrepr] at h2
    rw [← h2] at hhead
    have hdd : Nat.digitChar d = '-' := by
      simpa using hhead.symm
    exact digitChar_ne_dash d hd hdd

/-- C9, counterexample: a track id is the decimal string of the stop
call's `Date.now()`; two sessions whose stops land in the same
millisecond commit two store entries with identical ids, violating
store-lifetime uniqueness. -/
theorem duplicate_ids_same_millisecond :
    ∃ t1 t2 : RouteData,
      (stopTracking
          (handlePositionUpdate
            (startTracking
              (stopTracking
                (handlePositionUpdate (startTracking (initialState 0) 0 1)
                  ⟨0, 0, 5, none⟩ 0) 500)
              10 2)
            ⟨1, 1, 5, none⟩ 10) 500).savedRoutes = [t1, t2] ∧
        t1.id = t2.id :=
  ⟨_, _, rfl, rfl⟩

/-- C9, amended: each committed track's id is the decimal rendering of
the stop call's wall-clock milliseconds, so two commits receive distinct
ids exactly when their wall-clock milliseconds differ — uniqueness holds
for commits at distinct times but fails for two stops within the same
millisecond. -/
theorem distinct_commit_times_distinct_ids (s1 s2 : TrackerState)
    (n1 n2 : ℤ) (h1 : ¬s1.route.isEmpty = true) (h2 : ¬s2.route.isEmpty = true)
    (hne : n1 ≠ n2) :
    ∃ t1 t2 : RouteData,
      (stopTracking s1 n1).savedRoutes = s1.savedRoutes ++ [t1] ∧
        (stopTracking s2 n2).savedRoutes = s2.savedRoutes ++ [t2] ∧
        t1.id = toString n1 ∧ t2.id = toString n2 ∧ t1.id ≠ t2.id := by
  unfold stopTracking
  rw [if_neg h1, if_neg h2]
  refine ⟨_, _, rfl, rfl, rfl, rfl, ?_⟩
  intro hid
  exact hne (intToString_injective hid)

/-- C9 witness: distinct stop milliseconds at concrete states give
distinct ids. -/
theorem distinct_commit_times_distinct_ids_witness :
    ∃ t1 t2 : RouteData,
      (stopTracking (handlePositionUpdate (startTracking (initialState 0) 0 1)
          ⟨0, 0, 5, none⟩ 0) 500).savedRoutes =
        (handlePositionUpdate (startTracking (initialState 0) 0 1)
          ⟨0, 0, 5, none⟩ 0).savedRoutes ++ [t1] ∧
      (stopTracking (handlePositionUpdate (startTracking (initialState 0) 0 1)
          ⟨0, 0, 5, none⟩ 0) 501).savedRoutes =
        (handlePositionUpdate (startTracking (initialState 0) 0 1)
          ⟨0, 0, 5, none⟩ 0).savedRoutes ++ [t2] ∧
      t1.id = toString (500 : ℤ) ∧ t2.id = toString (501 : ℤ) ∧
      t1.id ≠ t2.id :=
  distinct_commit_times_distinct_ids
    (handlePositionUpdate (startTracking (initialState 0) 0 1)
      ⟨0, 0, 5, none⟩ 0)
    (handlePositionUpdate (startTracking (initialState 0) 0 1)
      ⟨0, 0, 5, none⟩ 0)
    500 501 (fun h => Bool.noConfusion h) (fun h => Bool.noConfusion h)
    (by decide)

end GPSTracker
